import Mathlib

/-!
Verification of the kraftkit cloud CLI core: identifier classification,
bulk stop/remove dispatching, volume removal, and the deploy command's
resolver and rollout orchestration.

Remote collaborators (the KraftCloud SDK client, credential loading, the
interactive selection prompt, the process-tree progress unit and the
filesystem) are modelled as explicit parameters; each command embedding
returns the ordered trace of remote calls it issued together with its
final result, mirroring the Go control flow statement by statement.
-/

namespace Kraftkit

/-- Modelled from the spec: `utils.IsUUID` (package
`kraftkit.sh/internal/cli/kraft/cloud/utils`) is called by the sources but
its definition is not among the provided files.  Spec 4.1: a token is a
UUID iff it exactly matches the canonical 36-character hyphenated
hexadecimal format, case-insensitive (hyphens at offsets 8, 13, 18, 23);
otherwise it is a Name.  Hex check on a character. -/
def isHexChar (c : Char) : Bool :=
  (48 ≤ c.toNat && c.toNat ≤ 57) ||
  (97 ≤ c.toNat && c.toNat ≤ 102) ||
  (65 ≤ c.toNat && c.toNat ≤ 70)

/-- Modelled from the spec: position check for the canonical hyphenated
UUID shape. -/
def uuidShape (i : Nat) (c : Char) : Bool :=
  if i = 8 || i = 13 || i = 18 || i = 23 then c == '-' else isHexChar c

/-- Modelled from the spec: the identifier classifier, spec 4.1 and 8.
`IsUUID s` holds iff `s` is exactly 36 characters with hyphens at offsets
8, 13, 18, 23 and hexadecimal digits elsewhere. -/
def IsUUID (s : String) : Bool :=
  s.length == 36 && (s.toList.enum.all fun p => uuidShape p.1 p.2)

/-- Whether `sub` is a leading segment of `l`. -/
def listStarts (sub l : List Char) : Bool :=
  match sub, l with
  | [], _ => true
  | _ :: _, [] => false
  | a :: as, b :: bs => a == b && listStarts as bs

/-- Whether `sub` occurs contiguously inside `l`. -/
def listHasInfix (sub l : List Char) : Bool :=
  listStarts sub l ||
    match l with
    | [] => false
    | _ :: rest => listHasInfix sub rest

/-- Whether one string occurs inside another, used to inspect rendered
error texts. -/
def strContains (s sub : String) : Bool :=
  listHasInfix sub.toList s.toList

/-- A remote call issued by a command, recorded in invocation order.
Mirrors the methods of the KraftCloud instances and volumes clients that
the sources invoke. -/
inductive RemoteCall where
  | listInstances
  | stopByUUIDs (timeoutMs : Int) (ids : List String)
  | stopByNames (timeoutMs : Int) (names : List String)
  | deleteByUUIDs (ids : List String)
  | deleteByNames (names : List String)
  | getByUUIDs (ids : List String)
  | getByNames (names : List String)
  | volDeleteByUUID (id : String)
  | volDeleteByName (name : String)
  deriving DecidableEq, Repr

/-- Behaviour of the remote instances client for one invocation: each
method is a pure function from its arguments to success or an error
message.  `list` returns the UUIDs of the live instances (the sources
only read the `UUID` field of each listed item); `getByUUIDs` and
`getByNames` likewise return the UUIDs of the matched instances. -/
structure InstancesClient where
  list : Except String (List String)
  stopByUUIDs : Int → List String → Except String Unit
  stopByNames : Int → List String → Except String Unit
  deleteByUUIDs : List String → Except String Unit
  deleteByNames : List String → Except String Unit
  getByUUIDs : List String → Except String (List String)
  getByNames : List String → Except String (List String)

/-- Behaviour of the remote volumes client (per-UUID / per-name delete). -/
structure VolumesClient where
  deleteByUUID : String → Except String Unit
  deleteByName : String → Except String Unit

namespace InstanceStop

/-- Flags of `kraft cloud instance stop` (stop.go).  Field defaults are
the Go zero values used by `cmdfactory.New(&StopOptions{}, ...)`: the
struct tag of `DrainTimeout` declares no `default:`, so an invocation
that omits `--drain-timeout` runs with a zero duration.  Durations are in
nanoseconds as in Go's `time.Duration`. -/
structure StopOptions where
  drainTimeout : Int := 0
  all : Bool := false

/-- Errors returned by `StopOptions.Run` (stop.go), tagged with the data
the corresponding `fmt.Errorf` interpolates. -/
inductive StopError where
  | credentials (e : String)
  | drainTimeoutTooSmall
  | listFailed (e : String)
  | batch (n : Nat) (e : String)
  | perItem (target : String) (e : String)
  deriving DecidableEq, Repr

/-- The remote call issued for one target on the per-item fallback path
of stop.go (lines 148-155). -/
def stopItemCall (t : Int) (a : String) : RemoteCall :=
  if IsUUID a then .stopByUUIDs t [a] else .stopByNames t [a]

/-- The client's response for one target on the per-item fallback path
of stop.go. -/
def stopItemRes (c : InstancesClient) (t : Int) (a : String) :
    Except String Unit :=
  if IsUUID a then c.stopByUUIDs t [a] else c.stopByNames t [a]

/-- The per-item fallback loop of stop.go (lines 147-161): one stop call
per argument in input order, returning the wrapped error of the first
failing call immediately (the loop body returns on error). -/
def stopPerItem (c : InstancesClient) (t : Int) :
    List String → List RemoteCall × Except StopError Unit
  | [] => ([], .ok ())
  | a :: rest =>
    match stopItemRes c t a with
    | .error e => ([stopItemCall t a], .error (.perItem a e))
    | .ok _ =>
      let r := stopPerItem c t rest
      (stopItemCall t a :: r.1, r.2)

/-- `StopOptions.Run` of stop.go (lines 87-164).  `creds` is the result
of `config.GetKraftCloudAuthConfig` (the auth collaborator, not a remote
instance call); `c` is the remote instances client.  Returns the trace
of remote calls in order together with the command's result.  On the
`--all` path the code logs a failed `StopByUUIDs` and still returns nil
(lines 116-120). -/
def StopOptions.Run (opts : StopOptions) (creds : Except String Unit)
    (c : InstancesClient) (args : List String) :
    List RemoteCall × Except StopError Unit :=
  match creds with
  | .error e => ([], .error (.credentials e))
  | .ok _ =>
    if opts.drainTimeout < 1000000 then
      ([], .error .drainTimeoutTooSmall)
    else
      let t := opts.drainTimeout / 1000000
      if opts.all then
        match c.list with
        | .error e => ([.listInstances], .error (.listFailed e))
        | .ok items =>
          -- the result of StopByUUIDs is only logged; Run returns nil
          ([.listInstances, .stopByUUIDs t items], .ok ())
      else
        let allUUIDs := args.all IsUUID
        let allNames := args.all fun a => !IsUUID a
        if allUUIDs then
          match c.stopByUUIDs t args with
          | .error e => ([.stopByUUIDs t args], .error (.batch args.length e))
          | .ok _ => ([.stopByUUIDs t args], .ok ())
        else if allNames then
          match c.stopByNames t args with
          | .error e => ([.stopByNames t args], .error (.batch args.length e))
          | .ok _ => ([.stopByNames t args], .ok ())
        else
          stopPerItem c t args

end InstanceStop

namespace InstanceRemove

/-- Flags of `kraft cloud instance remove` (part_001). -/
structure RemoveOptions where
  all : Bool := false

/-- Errors returned by `RemoveOptions.Run` (part_001). -/
inductive RemoveError where
  | credentials (e : String)
  | listFailed (e : String)
  | batch (n : Nat) (e : String)
  | perItem (target : String) (e : String)
  deriving DecidableEq, Repr

/-- The remote call issued for one target on the per-item fallback path
of part_001 (lines 140-147). -/
def removeItemCall (a : String) : RemoteCall :=
  if IsUUID a then .deleteByUUIDs [a] else .deleteByNames [a]

/-- The client's response for one target on the per-item fallback path
of part_001. -/
def removeItemRes (c : InstancesClient) (a : String) : Except String Unit :=
  if IsUUID a then c.deleteByUUIDs [a] else c.deleteByNames [a]

/-- The per-item fallback loop of part_001 (lines 139-153): one delete
call per argument in input order, returning the wrapped error of the
first failing call immediately. -/
def removePerItem (c : InstancesClient) :
    List String → List RemoteCall × Except RemoveError Unit
  | [] => ([], .ok ())
  | a :: rest =>
    match removeItemRes c a with
    | .error e => ([removeItemCall a], .error (.perItem a e))
    | .ok _ =>
      let r := removePerItem c rest
      (removeItemCall a :: r.1, r.2)

/-- `RemoveOptions.Run` of part_001 (lines 86-156).  Unlike the stop
command, the `--all` path returns the error of a failed `DeleteByUUIDs`
(lines 109-111). -/
def RemoveOptions.Run (opts : RemoveOptions) (creds : Except String Unit)
    (c : InstancesClient) (args : List String) :
    List RemoteCall × Except RemoveError Unit :=
  match creds with
  | .error e => ([], .error (.credentials e))
  | .ok _ =>
    if opts.all then
      match c.list with
      | .error e => ([.listInstances], .error (.listFailed e))
      | .ok items =>
        match c.deleteByUUIDs items with
        | .error e =>
          ([.listInstances, .deleteByUUIDs items],
           .error (.batch items.length e))
        | .ok _ => ([.listInstances, .deleteByUUIDs items], .ok ())
    else
      let allUUIDs := args.all IsUUID
      let allNames := args.all fun a => !IsUUID a
      if allUUIDs then
        match c.deleteByUUIDs args with
        | .error e => ([.deleteByUUIDs args], .error (.batch args.length e))
        | .ok _ => ([.deleteByUUIDs args], .ok ())
      else if allNames then
        match c.deleteByNames args with
        | .error e => ([.deleteByNames args], .error (.batch args.length e))
        | .ok _ => ([.deleteByNames args], .ok ())
      else
        removePerItem c args

end InstanceRemove

namespace VolumeRemove

/-- Errors returned by the volume `RemoveOptions.Run` (volume/remove.go).
The delete wrap ("could not delete volume: %w") does not name the
offending argument. -/
inductive VolError where
  | credentials (e : String)
  | deleteFailed (e : String)
  deriving DecidableEq, Repr

/-- The loop of volume/remove.go lines 80-94: one per-item delete call
per argument regardless of classification, returning the wrapped error
of the first failing call.  The `fmt.Fprintln` of each processed
argument goes to the output collaborator and is modelled as always
succeeding. -/
def volLoop (c : VolumesClient) :
    List String → List RemoteCall × Except VolError Unit
  | [] => ([], .ok ())
  | a :: rest =>
    let call : RemoteCall :=
      if IsUUID a then .volDeleteByUUID a else .volDeleteByName a
    match (if IsUUID a then c.deleteByUUID a else c.deleteByName a) with
    | .error e => ([call], .error (.deleteFailed e))
    | .ok _ =>
      let r := volLoop c rest
      (call :: r.1, r.2)

/-- `RemoveOptions.Run` of volume/remove.go (lines 70-97). -/
def run (creds : Except String Unit) (c : VolumesClient)
    (args : List String) : List RemoteCall × Except VolError Unit :=
  match creds with
  | .error e => ([], .error (.credentials e))
  | .ok _ => volLoop c args

end VolumeRemove

namespace Deploy

/-- A registered deployment strategy (the `deployer` interface of the
deploy package), specialised to one invocation: for the fixed
(context, options, args) of the invocation, `capable` and `caperr` are
the two results of `Deployable`, and `deployRes` is what `Deploy` would
return (instance list and service-group list, modelled by their
identifiers). -/
structure Deployer where
  name : String
  capable : Bool
  caperr : Option String
  deployRes : Except String (List String × List String)

/-- An observable event of one deploy invocation, in order: a remote
call, the interactive prompt (with the candidate names it lists), an
invocation of a deployer's `Deploy`, or the fixed one-minute wait of the
rollout closure. -/
inductive Event where
  | remote (c : RemoteCall)
  | prompt (names : List String)
  | deployed (name : String)
  | wait
  deriving DecidableEq, Repr

/-- Errors returned by `DeployOptions.Run` (part_002). -/
inductive DeployError where
  | credentials (e : String)
  | nameTaken (n : String)
  | workdir (e : String)
  | noCandidates (reasons : List String)
  | promptFailed (e : String)
  | ambiguous (names : List String)
  | deployFailed (e : String)
  | processTreeStart (e : String)
  deriving DecidableEq, Repr

/-- Concatenation of error messages as `errors.Join` renders them (one
per line). -/
def joinErrors : List String → String
  | [] => ""
  | [e] => e
  | e :: rest => e ++ "\n" ++ joinErrors rest

/-- The error text `DeployOptions.Run` surfaces, following its
`fmt.Errorf` format strings (part_002 lines 145, 157, 205, 218, 225,
284). -/
def DeployError.message : DeployError → String
  | .credentials e => "could not retrieve credentials: " ++ e
  | .nameTaken n => "service name '" ++ n ++ "' is already taken"
  | .workdir e => e
  | .noCandidates rs =>
    "could not determine how to run provided input: " ++ joinErrors rs
  | .promptFailed e => e
  | .ambiguous names => "multiple contexts discovered: " ++ toString names
  | .deployFailed e => "could not prepare deployment: " ++ e
  | .processTreeStart e => e

/-- Flags of `kraft cloud deploy` relevant to resolution and rollout
(part_002).  `noPrompt` is `config.G[config.KraftKit](ctx).NoPrompt`. -/
structure DeployOptions where
  deployAs : String := ""
  name : String := ""
  rollout : String := ""
  noPrompt : Bool := false

/-- External collaborators of one deploy invocation: credentials,
working-directory resolution (`os.Stat`/`filepath.Abs`/`os.Getwd`), the
remote client, the registered deployers in registration order, the
interactive selection prompt, and the result of constructing the
process-tree progress unit. -/
structure DeployWorld where
  creds : Except String Unit
  workdir : Except String Unit
  client : InstancesClient
  ds : List Deployer
  select : List Deployer → Except String Deployer
  processTree : Except String Unit

/-- The capability-probing loop of part_002 lines 184-202: skip
deployers filtered out by `--as`; a deployer that is capable with no
error joins the candidate set; one that returned an error contributes a
decline reason; one that is incapable without error is silently
excluded.  Both lists keep registration order. -/
def probeDeployers (deployAs : String) :
    List Deployer → List Deployer × List String
  | [] => ([], [])
  | d :: rest =>
    let r := probeDeployers deployAs rest
    if deployAs ≠ "" ∧ d.name ≠ deployAs then r
    else if d.capable ∧ d.caperr = none then (d :: r.1, r.2)
    else
      match d.caperr with
      | some e => (r.1, e :: r.2)
      | none => r

/-- Resolution of part_002 lines 180-221 given the trace accumulated so
far: workdir resolution, probing, then choice among zero, one or many
candidates (prompting through `w.select` unless `noPrompt`). -/
def deployResolve (w : DeployWorld) (opts : DeployOptions)
    (nameTr : List Event) : List Event × Except DeployError Deployer :=
  match w.workdir with
  | .error e => (nameTr, .error (.workdir e))
  | .ok _ =>
    match (probeDeployers opts.deployAs w.ds).1 with
    | [] => (nameTr, .error (.noCandidates (probeDeployers opts.deployAs w.ds).2))
    | [d] => (nameTr, .ok d)
    | d1 :: d2 :: rest =>
      if opts.noPrompt then
        (nameTr, .error (.ambiguous ((d1 :: d2 :: rest).map Deployer.name)))
      else
        match w.select (d1 :: d2 :: rest) with
        | .error e =>
          (nameTr ++ [.prompt ((d1 :: d2 :: rest).map Deployer.name)],
           .error (.promptFailed e))
        | .ok d =>
          (nameTr ++ [.prompt ((d1 :: d2 :: rest).map Deployer.name)],
           .ok d)

/-- The phase of `DeployOptions.Run` up to choosing a deployer:
credentials (part_002 lines 143-146), the `--name` preflight check
(lines 154-159: a `GetByNames` that succeeds means the name is taken),
then `deployResolve`. -/
def deployPre (w : DeployWorld) (opts : DeployOptions) :
    List Event × Except DeployError Deployer :=
  match w.creds with
  | .error e => ([], .error (.credentials e))
  | .ok _ =>
    if opts.name = "" then
      deployResolve w opts []
    else
      match w.client.getByNames [opts.name] with
      | .ok _ =>
        ([.remote (.getByNames [opts.name])], .error (.nameTaken opts.name))
      | .error _ =>
        deployResolve w opts [.remote (.getByNames [opts.name])]

/-- The rollout-target lookup of part_002 lines 250-254: by UUID when
the target classifies as one, by name otherwise; it returns the UUIDs
of the matched instances. -/
def rolloutGet (c : InstancesClient) (r : String) :
    Except String (List String) :=
  if IsUUID r then c.getByUUIDs [r] else c.getByNames [r]

/-- The remote call the rollout-target lookup issues. -/
def rolloutGetCall (r : String) : RemoteCall :=
  if IsUUID r then .getByUUIDs [r] else .getByNames [r]

/-- The rollout closure of part_002 lines 243-275: resolve the rollout
target to its instances, require exactly one, stop it with a one-minute
drain timeout, wait one minute, delete it.  Each failing step returns
its wrapped error immediately. -/
def rolloutClosure (c : InstancesClient) (r : String) :
    List Event × Except String Unit :=
  match rolloutGet c r with
  | .error e =>
    ([.remote (rolloutGetCall r)],
     .error ("could not retrieve old instance: " ++ e))
  | .ok oldInsts =>
    match oldInsts with
    | [u] =>
      match c.stopByUUIDs 60000 [u] with
      | .error e =>
        ([.remote (rolloutGetCall r), .remote (.stopByUUIDs 60000 [u])],
         .error ("could not stop the old instance: " ++ e))
      | .ok _ =>
        match c.deleteByUUIDs [u] with
        | .error e =>
          ([.remote (rolloutGetCall r), .remote (.stopByUUIDs 60000 [u]),
            .wait, .remote (.deleteByUUIDs [u])],
           .error ("could not remove the old instance: " ++ e))
        | .ok _ =>
          ([.remote (rolloutGetCall r), .remote (.stopByUUIDs 60000 [u]),
            .wait, .remote (.deleteByUUIDs [u])],
           .ok ())
    | _ =>
      ([.remote (rolloutGetCall r)],
       .error ("expected 1 instance, got " ++ toString oldInsts.length))

/-- `DeployOptions.Run` of part_002 (lines 140-294).  After a deployer
is chosen its `Deploy` is invoked (event recorded before the error
check, line 223); on success, a non-empty `--rollout` enters the rollout
block: a failed `processtree.NewProcessTree` construction makes Run
return nil with the rollout never attempted (lines 278-280), otherwise
the process tree runs the closure as its single sequential unit and
`Start` surfaces the closure's error (progress collaborator modelled
from the spec, 4.4: fail-fast sequential unit of work).  Output
rendering at the end is the out-of-scope renderer and is modelled as
succeeding. -/
def DeployOptions.Run (opts : DeployOptions) (w : DeployWorld) :
    List Event × Except DeployError Unit :=
  match deployPre w opts with
  | (tr, .error e) => (tr, .error e)
  | (tr, .ok d) =>
    let preTr := tr ++ [.deployed d.name]
    match d.deployRes with
    | .error e => (preTr, .error (.deployFailed e))
    | .ok _ =>
      if opts.rollout = "" then (preTr, .ok ())
      else
        match w.processTree with
        | .error _ => (preTr, .ok ())
        | .ok _ =>
          let rc := rolloutClosure w.client opts.rollout
          match rc.2 with
          | .error e =>
            (preTr ++ rc.1,
             .error (.processTreeStart
               ("could not start the process tree: " ++ e)))
          | .ok _ => (preTr ++ rc.1, .ok ())

/-- Whether an event is a stop request to the remote client. -/
def Event.isStopCall : Event → Bool
  | .remote (.stopByUUIDs _ _) => true
  | .remote (.stopByNames _ _) => true
  | _ => false

/-- Whether an event is a delete request to the remote client. -/
def Event.isDeleteCall : Event → Bool
  | .remote (.deleteByUUIDs _) => true
  | .remote (.deleteByNames _) => true
  | _ => false

/-- The deployers whose `Deploy` was invoked during a trace, in order. -/
def deployedNames (tr : List Event) : List String :=
  tr.filterMap fun e =>
    match e with
    | .deployed n => some n
    | _ => none

/-- The candidate lists presented by prompts during a trace, in order. -/
def promptedLists (tr : List Event) : List (List String) :=
  tr.filterMap fun e =>
    match e with
    | .prompt ns => some ns
    | _ => none

end Deploy

/-! Concrete collaborators used to evaluate the embeddings on the
inputs of the testable properties. -/

/-- An instances client on which every operation succeeds (the get
operations find nothing, as for a fresh account). -/
def okClient : InstancesClient where
  list := .ok []
  stopByUUIDs := fun _ _ => .ok ()
  stopByNames := fun _ _ => .ok ()
  deleteByUUIDs := fun _ => .ok ()
  deleteByNames := fun _ => .ok ()
  getByUUIDs := fun _ => .error "instance not found"
  getByNames := fun _ => .error "instance not found"

/-- A client on which every stop call fails. -/
def failStopClient : InstancesClient :=
  { okClient with
    stopByUUIDs := fun _ _ => .error "boom"
    stopByNames := fun _ _ => .error "boom" }

/-- A client with two live instances whose batch stop fails. -/
def stopAllFailClient : InstancesClient :=
  { okClient with
    list := .ok ["u1", "u2"]
    stopByUUIDs := fun _ _ => .error "backend unavailable" }

/-- A client on which stops by name succeed and stops by UUID fail. -/
def mixClient : InstancesClient :=
  { okClient with stopByUUIDs := fun _ _ => .error "down" }

/-- A volumes client on which every delete succeeds. -/
def volOkClient : VolumesClient where
  deleteByUUID := fun _ => .ok ()
  deleteByName := fun _ => .ok ()

/-- A deployer that declines with the given reason. -/
def declineDeployer (n reason : String) : Deploy.Deployer :=
  ⟨n, false, some reason, .error "unused"⟩

/-- A capable deployer whose deployment succeeds. -/
def capDeployer (n : String) : Deploy.Deployer :=
  ⟨n, true, none, .ok ([n ++ "-inst"], [n ++ "-sg"])⟩

/-- A world in which both registered deployers decline with a reason
that does not mention their name. -/
def noCandWorld : Deploy.DeployWorld where
  creds := .ok ()
  workdir := .ok ()
  client := okClient
  ds := [declineDeployer "kraftfile-runtime" "boom1",
         declineDeployer "image-name" "boom2"]
  select := fun _ => .error "no selection"
  processTree := .ok ()

/-- A world with two capable deployers whose prompt selects the second. -/
def twoCandWorld : Deploy.DeployWorld where
  creds := .ok ()
  workdir := .ok ()
  client := okClient
  ds := [capDeployer "c1", capDeployer "c2"]
  select := fun l =>
    match l with
    | _ :: d :: _ => .ok d
    | _ => .error "empty"
  processTree := .ok ()

/-- A world with one capable deployer in which constructing the
process-tree progress unit fails. -/
def treeFailWorld : Deploy.DeployWorld where
  creds := .ok ()
  workdir := .ok ()
  client := okClient
  ds := [capDeployer "kraftfile"]
  select := fun _ => .error "no tty"
  processTree := .error "no renderer"

/-- A client whose rollout-target lookup finds exactly one old instance,
whose stop succeeds and whose delete fails. -/
def deleteFailClient : InstancesClient :=
  { okClient with
    getByNames := fun _ => .ok ["old-u"]
    deleteByUUIDs := fun _ => .error "gone" }

/-- A world on which the rollout reaches the delete step and that step
fails. -/
def deleteFailWorld : Deploy.DeployWorld where
  creds := .ok ()
  workdir := .ok ()
  client := deleteFailClient
  ds := [capDeployer "kraftfile"]
  select := fun _ => .error "no tty"
  processTree := .ok ()

/-- A client whose rollout-target lookup by name matches two instances. -/
def twoMatchClient : InstancesClient :=
  { okClient with getByNames := fun _ => .ok ["u1", "u2"] }

/-- A client with two live instances whose batch delete fails. -/
def removeAllFailClient : InstancesClient :=
  { okClient with
    list := .ok ["u1", "u2"]
    deleteByUUIDs := fun _ => .error "backend unavailable" }

/-! ## Lemmas about the per-item fallback loops -/

theorem stopPerItem_all_ok (c : InstancesClient) (t : Int) (args : List String)
    (h : ∀ b ∈ args, InstanceStop.stopItemRes c t b = .ok ()) :
    InstanceStop.stopPerItem c t args
      = (args.map (InstanceStop.stopItemCall t), .ok ()) := by
  induction args with
  | nil => rfl
  | cons a rest ih =>
    have ha := h a (List.mem_cons_self a rest)
    have ih2 := ih fun b hb => h b (List.mem_cons_of_mem a hb)
    simp [InstanceStop.stopPerItem, ha, ih2]

theorem stopPerItem_first_fail (c : InstancesClient) (t : Int)
    (pre post : List String) (a e : String)
    (hpre : ∀ b ∈ pre, InstanceStop.stopItemRes c t b = .ok ())
    (ha : InstanceStop.stopItemRes c t a = .error e) :
    InstanceStop.stopPerItem c t (pre ++ a :: post)
      = ((pre ++ [a]).map (InstanceStop.stopItemCall t),
         .error (.perItem a e)) := by
  induction pre with
  | nil => simp [InstanceStop.stopPerItem, ha]
  | cons b rest ih =>
    have hb := hpre b (List.mem_cons_self b rest)
    have ih2 := ih fun x hx => hpre x (List.mem_cons_of_mem b hx)
    simp [InstanceStop.stopPerItem, hb, ih2]

theorem removePerItem_all_ok (c : InstancesClient) (args : List String)
    (h : ∀ b ∈ args, InstanceRemove.removeItemRes c b = .ok ()) :
    InstanceRemove.removePerItem c args
      = (args.map InstanceRemove.removeItemCall, .ok ()) := by
  induction args with
  | nil => rfl
  | cons a rest ih =>
    have ha := h a (List.mem_cons_self a rest)
    have ih2 := ih fun b hb => h b (List.mem_cons_of_mem a hb)
    simp [InstanceRemove.removePerItem, ha, ih2]

theorem removePerItem_first_fail (c : InstancesClient)
    (pre post : List String) (a e : String)
    (hpre : ∀ b ∈ pre, InstanceRemove.removeItemRes c b = .ok ())
    (ha : InstanceRemove.removeItemRes c a = .error e) :
    InstanceRemove.removePerItem c (pre ++ a :: post)
      = ((pre ++ [a]).map InstanceRemove.removeItemCall,
         .error (.perItem a e)) := by
  induction pre with
  | nil => simp [InstanceRemove.removePerItem, ha]
  | cons b rest ih =>
    have hb := hpre b (List.mem_cons_self b rest)
    have ih2 := ih fun x hx => hpre x (List.mem_cons_of_mem b hx)
    simp [InstanceRemove.removePerItem, hb, ih2]

theorem volLoop_all_ok (c : VolumesClient) (args : List String)
    (h : ∀ a ∈ args,
      (if IsUUID a then c.deleteByUUID a else c.deleteByName a) = .ok ()) :
    VolumeRemove.volLoop c args
      = (args.map fun a =>
          if IsUUID a then RemoteCall.volDeleteByUUID a
          else .volDeleteByName a,
         .ok ()) := by
  induction args with
  | nil => rfl
  | cons a rest ih =>
    have ha := h a (List.mem_cons_self a rest)
    have ih2 := ih fun b hb => h b (List.mem_cons_of_mem a hb)
    simp [VolumeRemove.volLoop, ha, ih2]

/-- On a mixed-kind argument list the stop command takes the per-item
fallback path. -/
theorem stopRun_mixed (c : InstancesClient) (opts : InstanceStop.StopOptions)
    (args : List String) (hall : opts.all = false)
    (ht : 1000000 ≤ opts.drainTimeout)
    (hu : args.all IsUUID = false)
    (hn : (args.all fun a => !IsUUID a) = false) :
    opts.Run (.ok ()) c args
      = InstanceStop.stopPerItem c (opts.drainTimeout / 1000000) args := by
  have h1 : ¬(opts.drainTimeout < 1000000) := by omega
  unfold InstanceStop.StopOptions.Run
  simp [h1, hall, hu, hn]

/-- On a mixed-kind argument list the remove command takes the per-item
fallback path. -/
theorem removeRun_mixed (c : InstancesClient)
    (ropts : InstanceRemove.RemoveOptions) (args : List String)
    (hall : ropts.all = false)
    (hu : args.all IsUUID = false)
    (hn : (args.all fun a => !IsUUID a) = false) :
    ropts.Run (.ok ()) c args = InstanceRemove.removePerItem c args := by
  unfold InstanceRemove.RemoveOptions.Run
  simp [hall, hu, hn]

/-! ## Claim theorems -/

/-- Claim C8: a stop invocation whose drain timeout is strictly below
one millisecond is rejected before any remote call, whatever the targets
and the `--all` flag: the remote-call trace is empty and the result is
an error, which is the sub-minimum-timeout precondition error whenever
credential loading succeeded. -/
theorem C8_stop_subms_timeout_rejected (creds : Except String Unit)
    (c : InstancesClient) (opts : InstanceStop.StopOptions)
    (args : List String) (h : opts.drainTimeout < 1000000) :
    (opts.Run creds c args).1 = [] ∧
      ∃ err, (opts.Run creds c args).2 = .error err ∧
        (creds = .ok () → err = .drainTimeoutTooSmall) := by
  cases creds with
  | error e =>
    exact ⟨rfl, ⟨.credentials e, rfl, fun hc => Except.noConfusion hc⟩⟩
  | ok u =>
    cases u
    have hr : opts.Run (.ok ()) c args = ([], .error .drainTimeoutTooSmall) := by
      unfold InstanceStop.StopOptions.Run
      simp [h]
    rw [hr]
    exact ⟨rfl, ⟨.drainTimeoutTooSmall, rfl, fun _ => rfl⟩⟩

/-- Witness for C8 at a concrete 999999-nanosecond drain timeout. -/
theorem C8_witness :
    ((InstanceStop.StopOptions.mk 999999 true).Run (.ok ()) okClient ["a"]).1 = [] ∧
      ∃ err,
        ((InstanceStop.StopOptions.mk 999999 true).Run (.ok ()) okClient ["a"]).2
          = .error err ∧
        ((Except.ok () : Except String Unit) = .ok () →
          err = .drainTimeoutTooSmall) :=
  C8_stop_subms_timeout_rejected (.ok ()) okClient
    (InstanceStop.StopOptions.mk 999999 true) ["a"] (by decide)

/-- Claim C10: the drain-timeout flag has no non-zero default, so the
zero-value options (with either `--all` setting, any targets) fail with
the sub-minimum-timeout error once credentials load, and with the
credential error before that; no remote call is issued either way. -/
theorem C10_stop_zero_default_timeout (c : InstancesClient)
    (args : List String) (b : Bool) :
    ({ all := b } : InstanceStop.StopOptions).drainTimeout = 0 ∧
    (∀ e, InstanceStop.StopOptions.Run { all := b } (.error e) c args
        = ([], .error (.credentials e))) ∧
    InstanceStop.StopOptions.Run { all := b } (.ok ()) c args
        = ([], .error .drainTimeoutTooSmall) := by
  refine ⟨rfl, fun e => rfl, ?_⟩
  unfold InstanceStop.StopOptions.Run
  norm_num

/-- Claim C2 (code-bug exhibit): on the operate-on-all path of the stop
command a failed batch `StopByUUIDs` is only logged and `Run` still
returns success, while the sibling remove command surfaces the identical
batch failure as an error. -/
theorem C2_stop_all_swallows_batch_failure :
    InstanceStop.StopOptions.Run { drainTimeout := 60000000000, all := true }
        (.ok ()) stopAllFailClient []
      = ([.listInstances, .stopByUUIDs 60000 ["u1", "u2"]], .ok ()) ∧
    stopAllFailClient.stopByUUIDs 60000 ["u1", "u2"]
      = .error "backend unavailable" ∧
    InstanceRemove.RemoveOptions.Run { all := true } (.ok ())
        removeAllFailClient []
      = ([.listInstances, .deleteByUUIDs ["u1", "u2"]],
         .error (.batch 2 "backend unavailable")) :=
  ⟨rfl, rfl, rfl⟩

/-- Claim C1 counterexample: a mixed target set of size two whose stops
would all fail yields one per-item call and an error naming only the
first target: not two calls, and not a two-entry aggregated error. -/
theorem C1_mixed_no_aggregation_cx :
    InstanceStop.StopOptions.Run { drainTimeout := 1000000 } (.ok ())
        failStopClient ["my-app", "11111111-1111-1111-1111-111111111111"]
      = ([.stopByNames 1 ["my-app"]], .error (.perItem "my-app" "boom")) ∧
    (InstanceStop.StopOptions.Run { drainTimeout := 1000000 } (.ok ())
        failStopClient ["my-app", "11111111-1111-1111-1111-111111111111"]).1.length
      = 1 :=
  ⟨rfl, rfl⟩

/-- Claim C1 (amended): on a mixed-kind target set the dispatcher takes
the per-item path in input order but aborts at the first failure: if
every per-item call succeeds it makes exactly N calls in input order and
succeeds; otherwise it stops at the first failing target and returns a
single error naming exactly that target, with earlier targets already
acted upon and later targets never attempted.  Likewise for the instance
remove command. -/
theorem C1_mixed_per_item_first_failure
    (c : InstancesClient) (opts : InstanceStop.StopOptions)
    (ropts : InstanceRemove.RemoveOptions)
    (args pre post : List String) (a e : String)
    (hall : opts.all = false) (hrall : ropts.all = false)
    (ht : 1000000 ≤ opts.drainTimeout)
    (hu : args.all IsUUID = false)
    (hn : (args.all fun x => !IsUUID x) = false) :
    ((∀ b ∈ args,
        InstanceStop.stopItemRes c (opts.drainTimeout / 1000000) b = .ok ()) →
      opts.Run (.ok ()) c args
        = (args.map (InstanceStop.stopItemCall (opts.drainTimeout / 1000000)),
           .ok ())) ∧
    (args = pre ++ a :: post →
      (∀ b ∈ pre,
        InstanceStop.stopItemRes c (opts.drainTimeout / 1000000) b = .ok ()) →
      InstanceStop.stopItemRes c (opts.drainTimeout / 1000000) a = .error e →
      opts.Run (.ok ()) c args
        = ((pre ++ [a]).map
            (InstanceStop.stopItemCall (opts.drainTimeout / 1000000)),
           .error (.perItem a e))) ∧
    ((∀ b ∈ args, InstanceRemove.removeItemRes c b = .ok ()) →
      ropts.Run (.ok ()) c args
        = (args.map InstanceRemove.removeItemCall, .ok ())) ∧
    (args = pre ++ a :: post →
      (∀ b ∈ pre, InstanceRemove.removeItemRes c b = .ok ()) →
      InstanceRemove.removeItemRes c a = .error e →
      ropts.Run (.ok ()) c args
        = ((pre ++ [a]).map InstanceRemove.removeItemCall,
           .error (.perItem a e))) := by
  refine ⟨?_, ?_, ?_, ?_⟩
  · intro hok
    rw [stopRun_mixed c opts args hall ht hu hn]
    exact stopPerItem_all_ok c _ args hok
  · intro hsplit hok hfail
    rw [stopRun_mixed c opts args hall ht hu hn, hsplit]
    exact stopPerItem_first_fail c _ pre post a e hok hfail
  · intro hok
    rw [removeRun_mixed c ropts args hrall hu hn]
    exact removePerItem_all_ok c args hok
  · intro hsplit hok hfail
    rw [removeRun_mixed c ropts args hrall hu hn, hsplit]
    exact removePerItem_first_fail c pre post a e hok hfail

/-- Witness for C1 (amended): a mixed pair whose first (name) stop
succeeds and whose second (UUID) stop fails aborts after the second
call with an error naming the UUID. -/
theorem C1_witness :
    InstanceStop.StopOptions.Run { drainTimeout := 1000000 } (.ok ()) mixClient
        ["svc", "11111111-1111-1111-1111-111111111111"]
      = ([.stopByNames 1 ["svc"],
          .stopByUUIDs 1 ["11111111-1111-1111-1111-111111111111"]],
         .error (.perItem "11111111-1111-1111-1111-111111111111" "down")) :=
  (C1_mixed_per_item_first_failure mixClient { drainTimeout := 1000000 } {}
      ["svc", "11111111-1111-1111-1111-111111111111"] ["svc"] []
      "11111111-1111-1111-1111-111111111111" "down"
      rfl rfl (by decide) (by decide) (by decide)).2.1
    rfl
    (fun b hb => by rcases List.mem_singleton.mp hb with rfl; rfl)
    rfl

/-- Claim C4 counterexample: the volume remove command, one of the
claim's subjects, given an all-UUID set of size two issues two per-item
delete calls and no batch call. -/
theorem C4_volume_all_uuid_per_item_cx :
    (VolumeRemove.run (.ok ()) volOkClient
        ["11111111-1111-1111-1111-111111111111",
         "22222222-2222-2222-2222-222222222222"]).1
      = [.volDeleteByUUID "11111111-1111-1111-1111-111111111111",
         .volDeleteByUUID "22222222-2222-2222-2222-222222222222"] ∧
    (["11111111-1111-1111-1111-111111111111",
      "22222222-2222-2222-2222-222222222222"].all IsUUID) = true :=
  ⟨rfl, by decide⟩

/-- Claim C4 (amended): for the instance stop and instance remove
commands, every non-empty all-UUID target set produces exactly one
batch-by-UUID call carrying the full list and no per-item call, and
symmetrically every non-empty all-Name set one batch-by-name call; the
volume remove command has no batch path and issues one per-item delete
call per target regardless of classification. -/
theorem C4_batch_dispatch
    (ci : InstancesClient) (cv : VolumesClient)
    (opts : InstanceStop.StopOptions) (ropts : InstanceRemove.RemoveOptions)
    (args : List String)
    (hne : args ≠ []) (hall : opts.all = false) (hrall : ropts.all = false)
    (ht : 1000000 ≤ opts.drainTimeout) :
    (args.all IsUUID = true →
      (opts.Run (.ok ()) ci args).1
        = [.stopByUUIDs (opts.drainTimeout / 1000000) args] ∧
      (ropts.Run (.ok ()) ci args).1 = [.deleteByUUIDs args]) ∧
    ((args.all fun a => !IsUUID a) = true →
      (opts.Run (.ok ()) ci args).1
        = [.stopByNames (opts.drainTimeout / 1000000) args] ∧
      (ropts.Run (.ok ()) ci args).1 = [.deleteByNames args]) ∧
    ((∀ a ∈ args,
        (if IsUUID a then cv.deleteByUUID a else cv.deleteByName a) = .ok ()) →
      (VolumeRemove.run (.ok ()) cv args).1
        = args.map fun a =>
            if IsUUID a then RemoteCall.volDeleteByUUID a
            else .volDeleteByName a) := by
  have h1 : ¬(opts.drainTimeout < 1000000) := by omega
  refine ⟨?_, ?_, ?_⟩
  · intro hu
    constructor
    · unfold InstanceStop.StopOptions.Run
      simp [h1, hall, hu]
      split <;> rfl
    · unfold InstanceRemove.RemoveOptions.Run
      simp [hrall, hu]
      split <;> rfl
  · intro hn
    have hu : args.all IsUUID = false := by
      cases args with
      | nil => exact absurd rfl hne
      | cons x rest =>
        have hx : IsUUID x = false := by
          have := List.all_eq_true.mp hn x (List.mem_cons_self x rest)
          simpa using this
        simp [List.all_cons, hx]
    constructor
    · unfold InstanceStop.StopOptions.Run
      simp [h1, hall, hu, hn]
      split <;> rfl
    · unfold InstanceRemove.RemoveOptions.Run
      simp [hrall, hu, hn]
      split <;> rfl
  · intro hok
    unfold VolumeRemove.run
    rw [volLoop_all_ok cv args hok]

/-! ## Lemmas about deploy traces and rendered error texts -/

@[simp] theorem deployedNames_nil : Deploy.deployedNames [] = [] := rfl

@[simp] theorem deployedNames_append (t1 t2 : List Deploy.Event) :
    Deploy.deployedNames (t1 ++ t2)
      = Deploy.deployedNames t1 ++ Deploy.deployedNames t2 := by
  simp [Deploy.deployedNames]

@[simp] theorem deployedNames_remote (c : RemoteCall) (tr : List Deploy.Event) :
    Deploy.deployedNames (.remote c :: tr) = Deploy.deployedNames tr := rfl

@[simp] theorem deployedNames_wait (tr : List Deploy.Event) :
    Deploy.deployedNames (.wait :: tr) = Deploy.deployedNames tr := rfl

@[simp] theorem deployedNames_prompt (ns : List String) (tr : List Deploy.Event) :
    Deploy.deployedNames (.prompt ns :: tr) = Deploy.deployedNames tr := rfl

@[simp] theorem deployedNames_deployed (n : String) (tr : List Deploy.Event) :
    Deploy.deployedNames (.deployed n :: tr) = n :: Deploy.deployedNames tr := rfl

@[simp] theorem promptedLists_nil : Deploy.promptedLists [] = [] := rfl

@[simp] theorem promptedLists_append (t1 t2 : List Deploy.Event) :
    Deploy.promptedLists (t1 ++ t2)
      = Deploy.promptedLists t1 ++ Deploy.promptedLists t2 := by
  simp [Deploy.promptedLists]

@[simp] theorem promptedLists_remote (c : RemoteCall) (tr : List Deploy.Event) :
    Deploy.promptedLists (.remote c :: tr) = Deploy.promptedLists tr := rfl

@[simp] theorem promptedLists_wait (tr : List Deploy.Event) :
    Deploy.promptedLists (.wait :: tr) = Deploy.promptedLists tr := rfl

@[simp] theorem promptedLists_deployed (n : String) (tr : List Deploy.Event) :
    Deploy.promptedLists (.deployed n :: tr) = Deploy.promptedLists tr := rfl

@[simp] theorem promptedLists_prompt (ns : List String) (tr : List Deploy.Event) :
    Deploy.promptedLists (.prompt ns :: tr)
      = ns :: Deploy.promptedLists tr := rfl

/-- Every event of the pre-rollout phase is a name-preflight lookup or a
prompt. -/
theorem deployResolve_events (w : Deploy.DeployWorld)
    (opts : Deploy.DeployOptions) (nameTr : List Deploy.Event)
    (ev : Deploy.Event)
    (hev : ev ∈ (Deploy.deployResolve w opts nameTr).1) :
    ev ∈ nameTr ∨ ∃ ns, ev = .prompt ns := by
  unfold Deploy.deployResolve at hev
  split at hev
  · exact .inl hev
  · split at hev
    · exact .inl hev
    · exact .inl hev
    · split at hev
      · exact .inl hev
      · split at hev
        · rcases List.mem_append.mp hev with h | h
          · exact .inl h
          · exact .inr ⟨_, List.mem_singleton.mp h⟩
        · rcases List.mem_append.mp hev with h | h
          · exact .inl h
          · exact .inr ⟨_, List.mem_singleton.mp h⟩

/-- Every event traced before a deployer is chosen is a name-preflight
lookup or a prompt. -/
theorem deployPre_events (w : Deploy.DeployWorld)
    (opts : Deploy.DeployOptions) (ev : Deploy.Event)
    (hev : ev ∈ (Deploy.deployPre w opts).1) :
    (∃ l, ev = .remote (.getByNames l)) ∨ ∃ ns, ev = .prompt ns := by
  unfold Deploy.deployPre at hev
  split at hev
  · simp at hev
  · split at hev
    · rcases deployResolve_events w opts [] ev hev with h | h
      · simp at h
      · exact .inr h
    · split at hev
      · rw [List.mem_singleton] at hev
        exact .inl ⟨[opts.name], hev⟩
      · rcases deployResolve_events w opts _ ev hev with h | h
        · rw [List.mem_singleton] at h
          exact .inl ⟨[opts.name], h⟩
        · exact .inr h

/-- The pre-rollout trace contains no stop call, no delete call and no
deploy invocation event. -/
theorem deployPre_clean (w : Deploy.DeployWorld)
    (opts : Deploy.DeployOptions) :
    ∀ ev ∈ (Deploy.deployPre w opts).1,
      ev.isStopCall = false ∧ ev.isDeleteCall = false ∧
        ∀ n, ev ≠ .deployed n := by
  intro ev hev
  rcases deployPre_events w opts ev hev with ⟨l, rfl⟩ | ⟨ns, rfl⟩
  · exact ⟨rfl, rfl, fun n h => Deploy.Event.noConfusion h⟩
  · exact ⟨rfl, rfl, fun n h => Deploy.Event.noConfusion h⟩

/-- The rollout-target lookup is neither a stop nor a delete call. -/
theorem getCall_clean (r : String) :
    Deploy.Event.isStopCall (.remote (Deploy.rolloutGetCall r)) = false ∧
    Deploy.Event.isDeleteCall (.remote (Deploy.rolloutGetCall r)) = false := by
  unfold Deploy.rolloutGetCall
  split <;> exact ⟨rfl, rfl⟩

/-- The rollout closure produces one of three traces: lookup only,
lookup then stop, or lookup, stop, wait and delete of the one matched
instance; in the last case the closure's result is decided by the
delete call. -/
theorem rolloutClosure_shape (c : InstancesClient) (r : String) :
    (∃ e, Deploy.rolloutClosure c r
        = ([.remote (Deploy.rolloutGetCall r)], .error e)) ∨
    (∃ u e, Deploy.rolloutClosure c r
        = ([.remote (Deploy.rolloutGetCall r),
            .remote (.stopByUUIDs 60000 [u])], .error e)) ∨
    (∃ u, (Deploy.rolloutClosure c r).1
        = [.remote (Deploy.rolloutGetCall r),
           .remote (.stopByUUIDs 60000 [u]), .wait,
           .remote (.deleteByUUIDs [u])] ∧
      ((c.deleteByUUIDs [u] = .ok () ∧
          (Deploy.rolloutClosure c r).2 = .ok ()) ∨
       (∃ e, c.deleteByUUIDs [u] = .error e ∧
          (Deploy.rolloutClosure c r).2
            = .error ("could not remove the old instance: " ++ e)))) := by
  cases hg : Deploy.rolloutGet c r with
  | error e =>
    exact .inl ⟨_, by unfold Deploy.rolloutClosure; rw [hg]⟩
  | ok insts =>
    match insts with
    | [] =>
      exact .inl ⟨_, by unfold Deploy.rolloutClosure; rw [hg]⟩
    | u1 :: u2 :: rest =>
      exact .inl ⟨_, by unfold Deploy.rolloutClosure; rw [hg]⟩
    | [u] =>
      cases hs : c.stopByUUIDs 60000 [u] with
      | error e =>
        refine .inr (.inl ⟨u, "could not stop the old instance: " ++ e, ?_⟩)
        unfold Deploy.rolloutClosure
        rw [hg]
        simp [hs]
      | ok v =>
        cases v
        cases hd : c.deleteByUUIDs [u] with
        | error e =>
          refine .inr (.inr ⟨u, ?_, .inr ⟨e, hd, ?_⟩⟩)
          · unfold Deploy.rolloutClosure
            rw [hg]
            simp [hs, hd]
          · unfold Deploy.rolloutClosure
            rw [hg]
            simp [hs, hd]
        | ok v2 =>
          cases v2
          refine .inr (.inr ⟨u, ?_, .inl ⟨hd, ?_⟩⟩)
          · unfold Deploy.rolloutClosure
            rw [hg]
            simp [hs, hd]
          · unfold Deploy.rolloutClosure
            rw [hg]
            simp [hs, hd]

/-- The rollout closure invokes no deployer and presents no prompt. -/
theorem rolloutClosure_no_aux_events (c : InstancesClient) (r : String) :
    Deploy.deployedNames (Deploy.rolloutClosure c r).1 = [] ∧
    Deploy.promptedLists (Deploy.rolloutClosure c r).1 = [] := by
  rcases rolloutClosure_shape c r with ⟨e, h⟩ | ⟨u, e, h⟩ | ⟨u, h1, _⟩
  · rw [h]
    exact ⟨rfl, rfl⟩
  · rw [h]
    exact ⟨rfl, rfl⟩
  · rw [h1]
    exact ⟨rfl, rfl⟩

@[simp] theorem string_toList_append (a b : String) :
    (a ++ b).toList = a.toList ++ b.toList := rfl

theorem listStarts_self_append (sub B : List Char) :
    listStarts sub (sub ++ B) = true := by
  induction sub with
  | nil => rfl
  | cons a as ih => simp [listStarts, ih]

theorem listHasInfix_append (A sub B : List Char) :
    listHasInfix sub (A ++ (sub ++ B)) = true := by
  induction A with
  | nil =>
    rw [List.nil_append]
    unfold listHasInfix
    simp [listStarts_self_append]
  | cons a A2 ih =>
    rw [List.cons_append]
    unfold listHasInfix
    simp [ih]

/-- Each member of a joined error list occurs in the joined text. -/
theorem joinErrors_decomp (rs : List String) (r : String) (h : r ∈ rs) :
    ∃ A B : List Char,
      (Deploy.joinErrors rs).toList = A ++ (r.toList ++ B) := by
  induction rs with
  | nil => cases h
  | cons x rest ih =>
    rcases List.mem_cons.mp h with rfl | h2
    · cases rest with
      | nil => exact ⟨[], [], by simp [Deploy.joinErrors]⟩
      | cons y t =>
        refine ⟨[], ("\n" ++ Deploy.joinErrors (y :: t)).toList, ?_⟩
        rw [show Deploy.joinErrors (r :: y :: t)
            = r ++ "\n" ++ Deploy.joinErrors (y :: t) from rfl]
        simp
    · cases rest with
      | nil => cases h2
      | cons y t =>
        rcases ih h2 with ⟨A, B, hAB⟩
        have hAB2 : (Deploy.joinErrors (y :: t)).data = A ++ (r.data ++ B) := hAB
        refine ⟨(x ++ "\n").toList ++ A, B, ?_⟩
        rw [show Deploy.joinErrors (x :: y :: t)
            = x ++ "\n" ++ Deploy.joinErrors (y :: t) from rfl]
        simp [hAB2]

/-- A decline reason always occurs inside the prefixed joined text. -/
theorem strContains_join (p : String) (rs : List String) (r : String)
    (h : r ∈ rs) :
    strContains (p ++ Deploy.joinErrors rs) r = true := by
  rcases joinErrors_decomp rs r h with ⟨A, B, hAB⟩
  have hlist : (p ++ Deploy.joinErrors rs).toList
      = (p.toList ++ A) ++ (r.toList ++ B) := by
    rw [string_toList_append, hAB]
    simp
  unfold strContains
  rw [hlist]
  exact listHasInfix_append (p.toList ++ A) r.toList B

/-- Witness for C4 at a singleton all-UUID set. -/
theorem C4_witness :
    (InstanceStop.StopOptions.Run { drainTimeout := 1000000 } (.ok ()) okClient
        ["11111111-1111-1111-1111-111111111111"]).1
      = [.stopByUUIDs 1 ["11111111-1111-1111-1111-111111111111"]] ∧
    (InstanceRemove.RemoveOptions.Run {} (.ok ()) okClient
        ["11111111-1111-1111-1111-111111111111"]).1
      = [.deleteByUUIDs ["11111111-1111-1111-1111-111111111111"]] :=
  (C4_batch_dispatch okClient volOkClient { drainTimeout := 1000000 } {}
      ["11111111-1111-1111-1111-111111111111"]
      (by decide) rfl rfl (by decide)).1 (by decide)

/-- Claim C3: when the deploy command reaches a requested rollout but
constructing the process-tree progress unit fails, `Run` returns success
immediately: the rollout closure never runs and the invocation's trace
contains no stop and no delete call, while the new instance was already
deployed. -/
theorem C3_processtree_ctor_error_skips_rollout
    (w : Deploy.DeployWorld) (opts : Deploy.DeployOptions)
    (tr : List Deploy.Event) (d : Deploy.Deployer)
    (p : List String × List String) (e : String)
    (hpre : Deploy.deployPre w opts = (tr, .ok d))
    (hdep : d.deployRes = .ok p)
    (hroll : opts.rollout ≠ "")
    (hpt : w.processTree = .error e) :
    opts.Run w = (tr ++ [.deployed d.name], .ok ()) ∧
    ∀ ev ∈ (opts.Run w).1,
      ev.isStopCall = false ∧ ev.isDeleteCall = false := by
  have hrun : opts.Run w = (tr ++ [.deployed d.name], .ok ()) := by
    unfold Deploy.DeployOptions.Run
    rw [hpre]
    simp [hdep, hroll, hpt]
  refine ⟨hrun, ?_⟩
  rw [hrun]
  intro ev hev
  rcases List.mem_append.mp hev with h | h
  · have h2 : ev ∈ (Deploy.deployPre w opts).1 := by rw [hpre]; exact h
    exact ⟨(deployPre_clean w opts ev h2).1, (deployPre_clean w opts ev h2).2.1⟩
  · rw [List.mem_singleton] at h
    subst h
    exact ⟨rfl, rfl⟩

/-- Witness for C3: a world whose process-tree construction fails makes
the deploy run end in success with the rollout silently skipped. -/
theorem C3_witness :
    Deploy.DeployOptions.Run { rollout := "old-instance" } treeFailWorld
      = ([.deployed "kraftfile"], .ok ()) :=
  (C3_processtree_ctor_error_skips_rollout treeFailWorld
      { rollout := "old-instance" } [] (capDeployer "kraftfile")
      (["kraftfile-inst"], ["kraftfile-sg"]) "no renderer"
      rfl rfl (by decide) rfl).1

/-- Claim C5: a rollout target that resolves to zero or several
instances is rejected with an error before any stop or delete call,
and a stop or delete call occurs only when the lookup matched exactly
one instance. -/
theorem C5_rollout_unique_resolution (c : InstancesClient) (r : String)
    (insts : List String) (hget : Deploy.rolloutGet c r = .ok insts) :
    (insts.length ≠ 1 →
      (Deploy.rolloutClosure c r).2
          = .error ("expected 1 instance, got " ++ toString insts.length) ∧
      ∀ ev ∈ (Deploy.rolloutClosure c r).1,
        ev.isStopCall = false ∧ ev.isDeleteCall = false) ∧
    ((∃ ev ∈ (Deploy.rolloutClosure c r).1,
        ev.isStopCall = true ∨ ev.isDeleteCall = true) →
      insts.length = 1) := by
  match insts with
  | [u] =>
    exact ⟨fun h => absurd rfl h, fun _ => rfl⟩
  | [] =>
    have hcl : Deploy.rolloutClosure c r
        = ([.remote (Deploy.rolloutGetCall r)],
           .error ("expected 1 instance, got " ++ toString (0 : Nat))) := by
      unfold Deploy.rolloutClosure
      rw [hget]
      rfl
    constructor
    · intro _
      rw [hcl]
      refine ⟨rfl, ?_⟩
      intro ev hev
      rw [List.mem_singleton] at hev
      subst hev
      exact getCall_clean r
    · rintro ⟨ev, hev, hor⟩
      rw [hcl] at hev
      rw [List.mem_singleton] at hev
      subst hev
      rcases hor with h | h
      · rw [(getCall_clean r).1] at h
        cases h
      · rw [(getCall_clean r).2] at h
        cases h
  | u1 :: u2 :: rest =>
    have hcl : Deploy.rolloutClosure c r
        = ([.remote (Deploy.rolloutGetCall r)],
           .error ("expected 1 instance, got "
              ++ toString (u1 :: u2 :: rest).length)) := by
      unfold Deploy.rolloutClosure
      rw [hget]
    constructor
    · intro _
      rw [hcl]
      refine ⟨rfl, ?_⟩
      intro ev hev
      rw [List.mem_singleton] at hev
      subst hev
      exact getCall_clean r
    · rintro ⟨ev, hev, hor⟩
      rw [hcl] at hev
      rw [List.mem_singleton] at hev
      subst hev
      rcases hor with h | h
      · rw [(getCall_clean r).1] at h
        cases h
      · rw [(getCall_clean r).2] at h
        cases h

/-- Witness for C5: a rollout target matching two instances by name is
rejected with no stop or delete call issued. -/
theorem C5_witness :
    (Deploy.rolloutClosure twoMatchClient "old").2
        = .error ("expected 1 instance, got "
            ++ toString (["u1", "u2"] : List String).length) ∧
    ∀ ev ∈ (Deploy.rolloutClosure twoMatchClient "old").1,
      ev.isStopCall = false ∧ ev.isDeleteCall = false :=
  (C5_rollout_unique_resolution twoMatchClient "old" ["u1", "u2"] rfl).1
    (by decide)

/-- Claim C6 counterexample: two registered deployers decline with
reasons that do not mention their names; the resulting error's text
contains the reasons but neither candidate name, refuting that the text
includes every candidate's name. -/
theorem C6_message_lacks_candidate_names_cx :
    (Deploy.DeployOptions.Run {} noCandWorld).2
      = .error (.noCandidates ["boom1", "boom2"]) ∧
    noCandWorld.ds.map Deploy.Deployer.name
      = ["kraftfile-runtime", "image-name"] ∧
    strContains ((Deploy.DeployError.noCandidates ["boom1", "boom2"]).message)
        "kraftfile-runtime" = false ∧
    strContains ((Deploy.DeployError.noCandidates ["boom1", "boom2"]).message)
        "image-name" = false :=
  ⟨rfl, rfl, by decide, by decide⟩

/-- Claim C6 (amended): with zero capable candidates the deploy command
fails with an error aggregating every decline reason collected during
probing, in registration order, and the rendered text contains each
decline reason; the command itself does not add the candidates' names
to the text. -/
theorem C6_zero_candidates_aggregate (w : Deploy.DeployWorld)
    (opts : Deploy.DeployOptions)
    (hc : w.creds = .ok ()) (hname : opts.name = "")
    (hw : w.workdir = .ok ())
    (hzero : (Deploy.probeDeployers opts.deployAs w.ds).1 = []) :
    opts.Run w
      = ([], .error (.noCandidates
          (Deploy.probeDeployers opts.deployAs w.ds).2)) ∧
    ∀ r ∈ (Deploy.probeDeployers opts.deployAs w.ds).2,
      strContains
        ((Deploy.DeployError.noCandidates
            (Deploy.probeDeployers opts.deployAs w.ds).2).message) r
        = true := by
  have hpre : Deploy.deployPre w opts
      = ([], .error (.noCandidates
          (Deploy.probeDeployers opts.deployAs w.ds).2)) := by
    unfold Deploy.deployPre Deploy.deployResolve
    rw [hc, hname, hw, hzero]
    simp
  constructor
  · unfold Deploy.DeployOptions.Run
    rw [hpre]
  · intro r hr
    have hmsg : (Deploy.DeployError.noCandidates
          (Deploy.probeDeployers opts.deployAs w.ds).2).message
        = "could not determine how to run provided input: "
            ++ Deploy.joinErrors (Deploy.probeDeployers opts.deployAs w.ds).2 :=
      rfl
    rw [hmsg]
    exact strContains_join _ _ r hr

/-- Witness for C6 on a world with two declining deployers. -/
theorem C6_witness :
    Deploy.DeployOptions.Run {} noCandWorld
      = ([], .error (.noCandidates ["boom1", "boom2"])) ∧
    strContains ((Deploy.DeployError.noCandidates ["boom1", "boom2"]).message)
        "boom2" = true :=
  ⟨(C6_zero_candidates_aggregate noCandWorld {} rfl rfl rfl rfl).1,
   (C6_zero_candidates_aggregate noCandWorld {} rfl rfl rfl rfl).2 "boom2"
     (by decide)⟩

/-- Once a deployer is chosen, the run's trace is the pre-trace, the
deploy invocation event, and a tail that contains no deploy invocation
and no prompt. -/
theorem deployRun_after_choice (w : Deploy.DeployWorld)
    (opts : Deploy.DeployOptions) (tr : List Deploy.Event)
    (d : Deploy.Deployer)
    (hpre : Deploy.deployPre w opts = (tr, .ok d)) :
    ∃ extra res,
      opts.Run w = (tr ++ [Deploy.Event.deployed d.name] ++ extra, res) ∧
      Deploy.deployedNames extra = [] ∧
      Deploy.promptedLists extra = [] := by
  cases hd : d.deployRes with
  | error e =>
    refine ⟨[], .error (.deployFailed e), ?_, rfl, rfl⟩
    unfold Deploy.DeployOptions.Run
    rw [hpre]
    simp [hd]
  | ok p =>
    by_cases hr : opts.rollout = ""
    · refine ⟨[], .ok (), ?_, rfl, rfl⟩
      unfold Deploy.DeployOptions.Run
      rw [hpre]
      simp [hd, hr]
    · cases hpt : w.processTree with
      | error e =>
        refine ⟨[], .ok (), ?_, rfl, rfl⟩
        unfold Deploy.DeployOptions.Run
        rw [hpre]
        simp [hd, hr, hpt]
      | ok u =>
        cases u
        cases hc2 : (Deploy.rolloutClosure w.client opts.rollout).2 with
        | error e =>
          refine ⟨(Deploy.rolloutClosure w.client opts.rollout).1,
            .error (.processTreeStart
              ("could not start the process tree: " ++ e)), ?_,
            (rolloutClosure_no_aux_events _ _).1,
            (rolloutClosure_no_aux_events _ _).2⟩
          unfold Deploy.DeployOptions.Run
          rw [hpre]
          simp [hd, hr, hpt, hc2, List.append_assoc]
        | ok u2 =>
          cases u2
          refine ⟨(Deploy.rolloutClosure w.client opts.rollout).1, .ok (), ?_,
            (rolloutClosure_no_aux_events _ _).1,
            (rolloutClosure_no_aux_events _ _).2⟩
          unfold Deploy.DeployOptions.Run
          rw [hpre]
          simp [hd, hr, hpt, hc2, List.append_assoc]

/-- Claim C7: with at least two capable candidates, non-interactive mode
fails reporting the ambiguous candidate set (in registration order) and
invokes no deployer; interactive mode presents exactly one prompt
listing the candidates in registration order and invokes exactly the
selected deployer's deploy operation. -/
theorem C7_multiple_candidates (w : Deploy.DeployWorld)
    (opts : Deploy.DeployOptions) (d1 d2 : Deploy.Deployer)
    (rest : List Deploy.Deployer)
    (hc : w.creds = .ok ()) (hname : opts.name = "")
    (hw : w.workdir = .ok ())
    (hcands : (Deploy.probeDeployers opts.deployAs w.ds).1
        = d1 :: d2 :: rest) :
    (opts.noPrompt = true →
      opts.Run w
        = ([], .error (.ambiguous
            ((d1 :: d2 :: rest).map Deploy.Deployer.name))) ∧
      Deploy.deployedNames (opts.Run w).1 = [] ∧
      Deploy.promptedLists (opts.Run w).1 = []) ∧
    (opts.noPrompt = false →
      ∀ dsel, w.select (d1 :: d2 :: rest) = .ok dsel →
        Deploy.promptedLists (opts.Run w).1
          = [(d1 :: d2 :: rest).map Deploy.Deployer.name] ∧
        Deploy.deployedNames (opts.Run w).1 = [dsel.name]) := by
  constructor
  · intro hnp
    have hpre : Deploy.deployPre w opts
        = ([], .error (.ambiguous
            ((d1 :: d2 :: rest).map Deploy.Deployer.name))) := by
      unfold Deploy.deployPre Deploy.deployResolve
      rw [hc, hname, hw, hcands]
      simp [hnp]
    have hrun : opts.Run w
        = ([], .error (.ambiguous
            ((d1 :: d2 :: rest).map Deploy.Deployer.name))) := by
      unfold Deploy.DeployOptions.Run
      rw [hpre]
    rw [hrun]
    exact ⟨rfl, rfl, rfl⟩
  · intro hnp dsel hsel
    have hpre : Deploy.deployPre w opts
        = ([.prompt ((d1 :: d2 :: rest).map Deploy.Deployer.name)],
           .ok dsel) := by
      unfold Deploy.deployPre Deploy.deployResolve
      rw [hc, hname, hw, hcands]
      simp [hnp, hsel]
    rcases deployRun_after_choice w opts _ dsel hpre
      with ⟨extra, res, hrun, hde, hpl⟩
    rw [hrun]
    constructor
    · simp [hpl]
    · simp [hde]

/-- Witness for C7: two capable candidates, prompt answers with the
second; the prompt lists both in order and only the second deploys. -/
theorem C7_witness :
    Deploy.promptedLists ((Deploy.DeployOptions.Run {} twoCandWorld).1)
      = [["c1", "c2"]] ∧
    Deploy.deployedNames ((Deploy.DeployOptions.Run {} twoCandWorld).1)
      = ["c2"] :=
  (C7_multiple_candidates twoCandWorld {} (capDeployer "c1")
      (capDeployer "c2") [] rfl rfl rfl rfl).2 rfl (capDeployer "c2") rfl

/-- A deploy run either produces a trace without stop or delete calls
(apart from deploy invocation events), or it reached the rollout
closure, and then its trace and result are exactly the pre-trace, the
deploy invocation of the chosen deployer whose deployment succeeded,
the closure's trace, and the closure's outcome. -/
theorem deployRun_trace_cases (w : Deploy.DeployWorld)
    (opts : Deploy.DeployOptions) :
    (∀ ev ∈ (opts.Run w).1,
      (ev.isStopCall = false ∧ ev.isDeleteCall = false) ∨
        ∃ n, ev = .deployed n) ∨
    (∃ d p,
      (Deploy.deployPre w opts).2 = .ok d ∧ d.deployRes = .ok p ∧
      opts.Run w
        = ((Deploy.deployPre w opts).1 ++ [Deploy.Event.deployed d.name]
             ++ (Deploy.rolloutClosure w.client opts.rollout).1,
           match (Deploy.rolloutClosure w.client opts.rollout).2 with
           | .error e =>
             .error (.processTreeStart
               ("could not start the process tree: " ++ e))
           | .ok _ => .ok ())) := by
  rcases hpre : Deploy.deployPre w opts with ⟨tr, res⟩
  cases res with
  | error e =>
    left
    have hrun : opts.Run w = (tr, .error e) := by
      unfold Deploy.DeployOptions.Run
      rw [hpre]
    rw [hrun]
    intro ev hev
    have h2 : ev ∈ (Deploy.deployPre w opts).1 := by rw [hpre]; exact hev
    exact .inl ⟨(deployPre_clean w opts ev h2).1,
      (deployPre_clean w opts ev h2).2.1⟩
  | ok d =>
    have hmemfact : ∀ ev ∈ tr ++ [Deploy.Event.deployed d.name],
        (ev.isStopCall = false ∧ ev.isDeleteCall = false) ∨
          ∃ n, ev = Deploy.Event.deployed n := by
      intro ev hev
      rcases List.mem_append.mp hev with h | h
      · have h2 : ev ∈ (Deploy.deployPre w opts).1 := by rw [hpre]; exact h
        exact .inl ⟨(deployPre_clean w opts ev h2).1,
          (deployPre_clean w opts ev h2).2.1⟩
      · exact .inr ⟨d.name, List.mem_singleton.mp h⟩
    cases hd : d.deployRes with
    | error e =>
      left
      have hrun : opts.Run w
          = (tr ++ [.deployed d.name], .error (.deployFailed e)) := by
        unfold Deploy.DeployOptions.Run
        rw [hpre]
        simp [hd]
      rw [hrun]
      exact hmemfact
    | ok p =>
      by_cases hr : opts.rollout = ""
      · left
        have hrun : opts.Run w = (tr ++ [.deployed d.name], .ok ()) := by
          unfold Deploy.DeployOptions.Run
          rw [hpre]
          simp [hd, hr]
        rw [hrun]
        exact hmemfact
      · cases hpt : w.processTree with
        | error e2 =>
          left
          have hrun : opts.Run w = (tr ++ [.deployed d.name], .ok ()) := by
            unfold Deploy.DeployOptions.Run
            rw [hpre]
            simp [hd, hr, hpt]
          rw [hrun]
          exact hmemfact
        | ok u =>
          cases u
          right
          refine ⟨d, p, by simp [hpre], hd, ?_⟩
          cases hc2 : (Deploy.rolloutClosure w.client opts.rollout).2 with
          | error e3 =>
            unfold Deploy.DeployOptions.Run
            rw [hpre]
            simp [hd, hr, hpt, hc2, List.append_assoc]
          | ok u2 =>
            cases u2
            unfold Deploy.DeployOptions.Run
            rw [hpre]
            simp [hd, hr, hpt, hc2, List.append_assoc]

/-- Claim C9: every delete issued by a deploy run occurs at the end of a
trace of the form pre-trace, deploy invocation of a deployer whose
deployment succeeded, target lookup, stop of the single matched old
instance, wait, delete of that same instance — so the stop precedes the
delete and both follow the successful creation of the new instance, the
pre-trace containing neither stops nor deletes; and when the delete step
fails the whole run fails with the wrapped process-tree error (the new
instance is never deleted: the only delete call targets the old one). -/
theorem C9_rollout_stop_before_delete (w : Deploy.DeployWorld)
    (opts : Deploy.DeployOptions) :
    (∀ ids,
      Deploy.Event.remote (.deleteByUUIDs ids) ∈ (opts.Run w).1 →
      ∃ d p u,
        (Deploy.deployPre w opts).2 = .ok d ∧
        d.deployRes = .ok p ∧ ids = [u] ∧
        (opts.Run w).1
          = (Deploy.deployPre w opts).1
              ++ [Deploy.Event.deployed d.name,
                  .remote (Deploy.rolloutGetCall opts.rollout),
                  .remote (.stopByUUIDs 60000 [u]), .wait,
                  .remote (.deleteByUUIDs [u])] ∧
        ∀ ev ∈ (Deploy.deployPre w opts).1,
          ev.isStopCall = false ∧ ev.isDeleteCall = false) ∧
    (∀ u e,
      Deploy.Event.remote (.deleteByUUIDs [u]) ∈ (opts.Run w).1 →
      w.client.deleteByUUIDs [u] = .error e →
      (opts.Run w).2
        = .error (.processTreeStart
            ("could not start the process tree: "
              ++ ("could not remove the old instance: " ++ e)))) := by
  have hpreclean : ∀ ev ∈ (Deploy.deployPre w opts).1,
      ev.isStopCall = false ∧ ev.isDeleteCall = false :=
    fun ev h => ⟨(deployPre_clean w opts ev h).1,
      (deployPre_clean w opts ev h).2.1⟩
  have hnodel : ∀ ids,
      Deploy.Event.remote (.deleteByUUIDs ids) ∉ (Deploy.deployPre w opts).1 := by
    intro ids hmem
    have := (hpreclean _ hmem).2
    simp [Deploy.Event.isDeleteCall] at this
  rcases deployRun_trace_cases w opts with hclean | ⟨d, p, h2, hd, hrun⟩
  · constructor
    · intro ids hmem
      rcases hclean _ hmem with ⟨_, hdc⟩ | ⟨n, hn⟩
      · simp [Deploy.Event.isDeleteCall] at hdc
      · simp at hn
    · intro u e hmem _
      rcases hclean _ hmem with ⟨_, hdc⟩ | ⟨n, hn⟩
      · simp [Deploy.Event.isDeleteCall] at hdc
      · simp at hn
  · rcases rolloutClosure_shape w.client opts.rollout
      with ⟨e1, hcl⟩ | ⟨u, e1, hcl⟩ | ⟨u, htr, hres⟩
    · have hfst : (opts.Run w).1
          = (Deploy.deployPre w opts).1 ++ [Deploy.Event.deployed d.name]
              ++ [.remote (Deploy.rolloutGetCall opts.rollout)] := by
        rw [hrun]
        rw [show (Deploy.rolloutClosure w.client opts.rollout).1
            = [.remote (Deploy.rolloutGetCall opts.rollout)] from by rw [hcl]]
      constructor
      · intro ids hmem
        rw [hfst] at hmem
        rcases List.mem_append.mp hmem with hmem2 | hmem2
        · rcases List.mem_append.mp hmem2 with hmem3 | hmem3
          · exact absurd hmem3 (hnodel ids)
          · simp at hmem3
        · rw [List.mem_singleton] at hmem2
          cases hI : IsUUID opts.rollout <;>
            simp [Deploy.rolloutGetCall, hI] at hmem2
      · intro u e hmem _
        rw [hfst] at hmem
        rcases List.mem_append.mp hmem with hmem2 | hmem2
        · rcases List.mem_append.mp hmem2 with hmem3 | hmem3
          · exact absurd hmem3 (hnodel [u])
          · simp at hmem3
        · rw [List.mem_singleton] at hmem2
          cases hI : IsUUID opts.rollout <;>
            simp [Deploy.rolloutGetCall, hI] at hmem2
    · have hfst : (opts.Run w).1
          = (Deploy.deployPre w opts).1 ++ [Deploy.Event.deployed d.name]
              ++ [.remote (Deploy.rolloutGetCall opts.rollout),
                  .remote (.stopByUUIDs 60000 [u])] := by
        rw [hrun]
        rw [show (Deploy.rolloutClosure w.client opts.rollout).1
            = [.remote (Deploy.rolloutGetCall opts.rollout),
               .remote (.stopByUUIDs 60000 [u])] from by rw [hcl]]
      constructor
      · intro ids hmem
        rw [hfst] at hmem
        rcases List.mem_append.mp hmem with hmem2 | hmem2
        · rcases List.mem_append.mp hmem2 with hmem3 | hmem3
          · exact absurd hmem3 (hnodel ids)
          · simp at hmem3
        · cases hI : IsUUID opts.rollout <;>
            simp [Deploy.rolloutGetCall, hI] at hmem2
      · intro u2 e hmem _
        rw [hfst] at hmem
        rcases List.mem_append.mp hmem with hmem2 | hmem2
        · rcases List.mem_append.mp hmem2 with hmem3 | hmem3
          · exact absurd hmem3 (hnodel [u2])
          · simp at hmem3
        · cases hI : IsUUID opts.rollout <;>
            simp [Deploy.rolloutGetCall, hI] at hmem2
    · have hfst : (opts.Run w).1
          = (Deploy.deployPre w opts).1 ++ [Deploy.Event.deployed d.name]
              ++ [.remote (Deploy.rolloutGetCall opts.rollout),
                  .remote (.stopByUUIDs 60000 [u]), .wait,
                  .remote (.deleteByUUIDs [u])] := by
        rw [hrun]
        rw [show (Deploy.rolloutClosure w.client opts.rollout).1
            = [.remote (Deploy.rolloutGetCall opts.rollout),
               .remote (.stopByUUIDs 60000 [u]), .wait,
               .remote (.deleteByUUIDs [u])] from htr]
      constructor
      · intro ids hmem
        rw [hfst] at hmem
        rcases List.mem_append.mp hmem with hmem2 | hmem2
        · rcases List.mem_append.mp hmem2 with hmem3 | hmem3
          · exact absurd hmem3 (hnodel ids)
          · simp at hmem3
        · have hids : ids = [u] := by
            cases hI : IsUUID opts.rollout <;>
              simp [Deploy.rolloutGetCall, hI] at hmem2 <;>
              exact hmem2
          refine ⟨d, p, u, h2, hd, hids, ?_, hpreclean⟩
          rw [hfst]
          simp
      · intro u2 e hmem hdel
        rw [hfst] at hmem
        rcases List.mem_append.mp hmem with hmem2 | hmem2
        · rcases List.mem_append.mp hmem2 with hmem3 | hmem3
          · exact absurd hmem3 (hnodel [u2])
          · simp at hmem3
        · have hu : u2 = u := by
            cases hI : IsUUID opts.rollout <;>
              simp [Deploy.rolloutGetCall, hI] at hmem2 <;>
              exact hmem2
          subst hu
          rcases hres with ⟨hok, _⟩ | ⟨e2, hde2, hc2⟩
          · rw [hdel] at hok
            exact Except.noConfusion hok
          · rw [hdel] at hde2
            have he : e2 = e := (Except.error.inj hde2).symm
            subst he
            rw [hrun]
            simp [hc2]

/-- Witness for C9: a rollout whose delete step fails makes the whole
deploy run fail with the wrapped process-tree error. -/
theorem C9_witness :
    (Deploy.DeployOptions.Run { rollout := "old-app" } deleteFailWorld).2
      = .error (.processTreeStart
          ("could not start the process tree: "
            ++ ("could not remove the old instance: " ++ "gone"))) :=
  (C9_rollout_stop_before_delete deleteFailWorld { rollout := "old-app" }).2
    "old-u" "gone" (by decide) rfl

end Kraftkit
